import Mathlib

/-!
Shallow embedding of the mlpack CSV loader (`src/mlpack/core/data/load_csv.hpp`,
class `LoadCSV`).

A file is modelled as the list of lines that repeated `std::getline` calls on
the stream would produce (`List String`).  A line handed to a line stream and
split at the delimiter by `std::getline(line_stream, token, delim)` produces
exactly the pieces of `splitPieces`: one piece per delimiter-separated segment,
including a trailing empty piece when the line ends with the delimiter (the
final failing `getline` erases the token, and the loop body still runs once
because `good()` was still true after consuming the delimiter).

Machine state that the C++ code mutates in place (the `DatasetMapper`, the
armadillo matrix) is threaded explicitly.  Exceptions become error values;
behaviour that is undefined in the C++ source (out-of-range `std::string`
indexing inside the quote-stitching loop, writes past the sized matrix) is
modelled by dedicated outcome markers, since no defined C++ state exists there.
-/

/-- Modelled from the spec: the `trim` helper lives in
`string_algorithms.hpp`, which is outside the given source; the spec says a
token "undergoes leading/trailing whitespace trimming before conversion".
`isWS` recognises the usual ASCII whitespace characters. -/
def isWS (c : Char) : Bool := c == ' ' || c == '\t' || c == '\n' || c == '\r'

/-- Modelled from the spec: remove leading and trailing whitespace. -/
def trim (s : String) : String :=
  String.mk (((s.toList.dropWhile isWS).reverse.dropWhile isWS).reverse)

/-- `line.size() == 0` test on a (trimmed) C++ string. -/
def strEmpty (s : String) : Bool := s.toList.isEmpty

/-- Split a line at the delimiter, as the repeated
`std::getline(line_stream, token, delim)` loop does. -/
def splitCharsAux (d : Char) : List Char → List Char → List String
  | [], acc => [String.mk acc.reverse]
  | c :: cs, acc =>
      if c == d then String.mk acc.reverse :: splitCharsAux d cs []
      else splitCharsAux d cs (c :: acc)

/-- The delimiter-separated pieces of one line. -/
def splitPieces (d : Char) (line : String) : List String :=
  splitCharsAux d line.toList []

/-- The `token[0] == '"'` test exactly as the C++ code performs it: on an
empty `std::string`, `operator[]` at position `0 == size()` yields the null
character (C++11), which is not a quote. -/
def firstIsQuote (s : String) : Bool :=
  s.toList.headD (Char.ofNat 0) == '"'

/-- The `token[token.size() - 1] == '"'` test for a token already known to be
non-empty (guarded by `firstIsQuote` through the short-circuiting `&&`). -/
def lastIsQuote (s : String) : Bool :=
  s.toList.getLast?.getD (Char.ofNat 0) == '"'

/-- Core of the quote-aware token loop shared by `GetMatrixSize`,
`GetTransposeMatrixSize`, `NonTransposeParse` and `TransposeParse`.

State `none`: not inside a quote-stitch; the next piece is trimmed and the
`token[0] == '"' && token[token.size()-1] != '"'` test decides whether the
stitching `while` loop is entered.

State `some acc`: inside the stitching loop `while (token[token.size()-1] !=
'"') { tok += delim; getline(token); tok += token; }`; `acc` is `tok` so far.
The loop tests the last character of each raw (untrimmed) piece it reads.

Result `none` models the source's undefined outcome: when the pieces are
exhausted mid-stitch the failing `getline` erases `token` and the loop then
evaluates `token[token.size() - 1]` on an empty string (index `SIZE_MAX`,
out of range), and likewise when a piece read inside the stitch is empty.
No terminated, defined token list exists for such a line. -/
def tokGo (d : Char) : List String → Option String → Option (List String)
  | [], none => some []
  | [], some _ => none
  | p :: ps, none =>
      let token := trim p
      if firstIsQuote token && !lastIsQuote token then
        tokGo d ps (some token)
      else
        match tokGo d ps none with
        | none => none
        | some rest => some (token :: rest)
  | p :: ps, some acc =>
      match p.toList.getLast? with
      | none => none
      | some c =>
          let acc2 := acc ++ d.toString ++ p
          if c == '"' then
            match tokGo d ps none with
            | none => none
            | some rest => some (acc2 :: rest)
          else
            tokGo d ps (some acc2)

/-- Tokenize one (already trimmed, non-empty) line the way the source's inner
`while (line_stream.good())` loop does. -/
def tokenizeLine (d : Char) (line : String) : Option (List String) :=
  tokGo d (splitPieces d line) none

/-- Instrumentation of `tokGo`: `true` iff the traversal evaluates the
`token[0] == '"'` test on a zero-length token (the access the spec flags:
no length guard precedes the first-character indexing in the source). -/
def emptyTokenHeadTest (d : Char) : List String → Bool → Bool
  | [], _ => false
  | p :: ps, false =>
      let token := trim p
      if strEmpty token then true
      else if firstIsQuote token && !lastIsQuote token then
        emptyTokenHeadTest d ps true
      else
        emptyTokenHeadTest d ps false
  | p :: ps, true =>
      match p.toList.getLast? with
      | none => false
      | some c =>
          if c == '"' then emptyTokenHeadTest d ps false
          else emptyTokenHeadTest d ps true

/-- Delimiter selection in the constructor `LoadCSV::LoadCSV(const
std::string&)`: `csv` sets a comma, `tsv` a horizontal tab, `txt` a single
space.  Any other extension matches none of the three `if` branches and the
member `delim` is left unassigned, modelled as `Option.none`. -/
def delimFromExtension (ext : String) : Option Char :=
  if ext = "csv" then some ','
  else if ext = "tsv" then some '\t'
  else if ext = "txt" then some ' '
  else none

/-- The first line whose trimmed form is non-empty. -/
def firstDataLine (file : List String) : Option String :=
  file.find? (fun l => !strEmpty (trim l))

/-- Modelled from the spec: `GetNonNumericMatSize` is declared but implemented
outside the given source (`load_csv_impl.hpp`).  Per the spec, its second
component, the one the callers use, is the field count of the first
data-bearing (non-empty) line; `0` when there is none. -/
def matSizeCols (d : Char) (file : List String) : Nat :=
  match firstDataLine file with
  | none => 0
  | some l =>
      match tokenizeLine d (trim l) with
      | none => 0
      | some ts => ts.length

/-- The `DatasetMapper` collaborator, at the interface the parser consumes:
its mutable dimensionality and the trace of `MapFirstPass(token, position)`
calls made on it, in call order. -/
structure Info where
  dim : Nat
  fp : List (String × Nat)
deriving DecidableEq, Repr

/-- The failure outcomes of a load.  `dimMismatch`, `wrongDimNT` and
`wrongDimT` carry exactly the quantities interpolated into the corresponding
exception messages of the source.  `matIndexOutOfRange` marks an indexed
matrix write outside the sized extent, and `undefBehavior` marks the
quote-stitching loop's out-of-range string indexing; neither has a defined
C++ continuation. -/
inductive LoadErr
  | dimMismatch (given found : Nat)
  | wrongDimNT (got line expected : Nat)
  | wrongDimT (got col expected : Nat)
  | matIndexOutOfRange
  | undefBehavior
deriving DecidableEq, Repr

/-- The caller-owned matrix: its sized extent and the ordered list of indexed
writes `(row, col, value)` performed on it since the last `set_size`. -/
structure Mat (T : Type) where
  nRows : Nat
  nCols : Nat
  writes : List (Nat × Nat × T)
deriving DecidableEq, Repr

/-- `inout.set_size(r, c)`: contents become unspecified (no writes yet). -/
def Mat.setSize (T : Type) (r c : Nat) : Mat T := ⟨r, c, []⟩

/-- One indexed write `inout(i, j) = v`; defined only inside the sized
extent. -/
def Mat.write {T : Type} (m : Mat T) (i j : Nat) (v : T) : Option (Mat T) :=
  if i < m.nRows ∧ j < m.nCols then
    some ⟨m.nRows, m.nCols, m.writes ++ [(i, j, v)]⟩
  else none

/-- The value a cell holds: the last write to it, `none` if it was never
written (post-allocation contents are unspecified). -/
def Mat.cell {T : Type} (m : Mat T) (i j : Nat) : Option T :=
  (m.writes.filterMap fun w =>
    if w.1 = i ∧ w.2.1 = j then some w.2.2 else none).getLast?

/-- Second loop of `GetMatrixSize`: recount the lines into `rows`; when the
policy needs a first pass, tokenize each line, hand every token to
`MapFirstPass` with position `rows - 1` (the zero-based line index), and stop
at the first empty line (after counting it).  Returns the final `rows` and
the `MapFirstPass` trace. -/
def gmsPass2 (d : Char) (needsFP : Bool) :
    List String → Nat → Except LoadErr (Nat × List (String × Nat))
  | [], r => Except.ok (r, [])
  | l :: ls, r =>
      let line := trim l
      if needsFP then
        if strEmpty line then Except.ok (r + 1, [])
        else
          match tokenizeLine d line with
          | none => Except.error LoadErr.undefBehavior
          | some ts =>
              match gmsPass2 d needsFP ls (r + 1) with
              | Except.error e => Except.error e
              | Except.ok (rf, tr) =>
                  Except.ok (rf, ts.map (fun t => (t, r)) ++ tr)
      else
        gmsPass2 d needsFP ls (r + 1)

/-- `LoadCSV::GetMatrixSize` (non-transposed discovery).  Pass 1 counts every
line of the file into `rows`; the dimensionality block then seeds or checks
the mapper (the source repeats this block verbatim; after the first copy the
dimensionality already equals the line count, so the repeat can neither throw
nor change anything).  Pass 2 recounts `rows` (stopping early at an empty
line only when a first pass is required), extracts `cols` from the first line
via `GetNonNumericMatSize`, and feeds the first-pass trace. -/
def getMatrixSize (d : Char) (needsFP : Bool) (file : List String)
    (info : Info) : Except LoadErr (Nat × Nat × Info) :=
  let rows1 := file.length
  if info.dim ≠ 0 ∧ info.dim ≠ rows1 then
    Except.error (LoadErr.dimMismatch info.dim rows1)
  else
    match gmsPass2 d needsFP file 0 with
    | Except.error e => Except.error e
    | Except.ok (rows2, tr) =>
        Except.ok (rows2, matSizeCols d file, Info.mk rows1 (info.fp ++ tr))

/-- Loop of `GetTransposeMatrixSize`: count the lines into `cols`; when the
policy needs a first pass, tokenize each line and hand every token to
`MapFirstPass` with the per-line counter `dim++` (the zero-based field index,
reset at each line), stopping at the first empty line (after counting it). -/
def gtmsPass (d : Char) (needsFP : Bool) :
    List String → Nat → Except LoadErr (Nat × List (String × Nat))
  | [], c => Except.ok (c, [])
  | l :: ls, c =>
      let line := trim l
      if needsFP then
        if strEmpty line then Except.ok (c + 1, [])
        else
          match tokenizeLine d line with
          | none => Except.error LoadErr.undefBehavior
          | some ts =>
              match gtmsPass d needsFP ls (c + 1) with
              | Except.error e => Except.error e
              | Except.ok (cf, tr) =>
                  Except.ok (cf, ts.enum.map (fun it => (it.2, it.1)) ++ tr)
      else
        gtmsPass d needsFP ls (c + 1)

/-- `LoadCSV::GetTransposeMatrixSize` (transposed discovery).  `rows` comes
from `GetNonNumericMatSize` at the first line and is seeded into / checked
against the mapper there; on an empty file the loop never runs, so neither
happens.  `cols` counts the lines. -/
def getTransposeMatrixSize (d : Char) (needsFP : Bool) (file : List String)
    (info : Info) : Except LoadErr (Nat × Nat × Info) :=
  if file = [] then Except.ok (0, 0, info)
  else
    let rows := matSizeCols d file
    if info.dim ≠ 0 ∧ info.dim ≠ rows then
      Except.error (LoadErr.dimMismatch info.dim rows)
    else
      match gtmsPass d needsFP file 0 with
      | Except.error e => Except.error e
      | Except.ok (cols, tr) =>
          Except.ok (rows, cols, Info.mk rows (info.fp ++ tr))

/-- The outcome of a parse: the matrix and mapper as left behind, and the
error (exception) that aborted the load, if any. -/
structure ParseOut (T : Type) where
  mat : Mat T
  info : Info
  err : Option LoadErr
deriving DecidableEq, Repr

/-- The per-line write sequence of `NonTransposeParse`:
`inout(row, col++) = MapString(token, row)` for each token in order. -/
def writeRowTokens {T : Type} (ms : String → Nat → T) (row : Nat) :
    List String → Nat → Mat T → Option (Mat T)
  | [], _, m => some m
  | t :: ts, col, m =>
      match m.write row col (ms t row) with
      | none => none
      | some m2 => writeRowTokens ms row ts (col + 1) m2

/-- Line loop of `NonTransposeParse`: stop at an empty line; otherwise
tokenize, write each token at `(row, col++)`, and require the final token
count to equal `cols` (the wrong-dimension exception names the count, the
line index `row`, and `cols`). -/
def ntpLoop {T : Type} (d : Char) (ms : String → Nat → T) (cols : Nat) :
    List String → Nat → Mat T → Info → ParseOut T
  | [], _, m, i => ⟨m, i, none⟩
  | l :: ls, row, m, i =>
      let line := trim l
      if strEmpty line then ⟨m, i, none⟩
      else
        match tokenizeLine d line with
        | none => ⟨m, i, some LoadErr.undefBehavior⟩
        | some ts =>
            match writeRowTokens ms row ts 0 m with
            | none => ⟨m, i, some LoadErr.matIndexOutOfRange⟩
            | some m2 =>
                if ts.length ≠ cols then
                  ⟨m2, i, some (LoadErr.wrongDimNT ts.length row cols)⟩
                else
                  ntpLoop d ms cols ls (row + 1) m2 i

/-- `LoadCSV::NonTransposeParse`: discovery, then `set_size(rows, cols)`,
then the population loop from the start of the file. -/
def nonTransposeParse {T : Type} (d : Char) (needsFP : Bool)
    (ms : String → Nat → T) (file : List String) (info : Info) (m : Mat T) :
    ParseOut T :=
  match getMatrixSize d needsFP file info with
  | Except.error e => ⟨m, info, some e⟩
  | Except.ok (rows, cols, info1) =>
      ntpLoop d ms cols file 0 (Mat.setSize T rows cols) info1

/-- The per-line write sequence of `TransposeParse`:
`inout(row, col) = MapString(token, row)` with `row++` for each token. -/
def writeColTokens {T : Type} (ms : String → Nat → T) (col : Nat) :
    List String → Nat → Mat T → Option (Mat T)
  | [], _, m => some m
  | t :: ts, row, m =>
      match m.write row col (ms t row) with
      | none => none
      | some m2 => writeColTokens ms col ts (row + 1) m2

/-- Line loop of `TransposeParse`: each line fills column `col` across
increasing row indices; the final row count must equal `rows` (the
wrong-dimension exception names the count, the column index `col`, and
`rows`). -/
def tpLoop {T : Type} (d : Char) (ms : String → Nat → T) (rows : Nat) :
    List String → Nat → Mat T → Info → ParseOut T
  | [], _, m, i => ⟨m, i, none⟩
  | l :: ls, col, m, i =>
      let line := trim l
      if strEmpty line then ⟨m, i, none⟩
      else
        match tokenizeLine d line with
        | none => ⟨m, i, some LoadErr.undefBehavior⟩
        | some ts =>
            match writeColTokens ms col ts 0 m with
            | none => ⟨m, i, some LoadErr.matIndexOutOfRange⟩
            | some m2 =>
                if ts.length ≠ rows then
                  ⟨m2, i, some (LoadErr.wrongDimT ts.length col rows)⟩
                else
                  tpLoop d ms rows ls (col + 1) m2 i

/-- `LoadCSV::TransposeParse`: transposed discovery, then
`set_size(rows, cols)`, then the population loop. -/
def transposeParse {T : Type} (d : Char) (needsFP : Bool)
    (ms : String → Nat → T) (file : List String) (info : Info) (m : Mat T) :
    ParseOut T :=
  match getTransposeMatrixSize d needsFP file info with
  | Except.error e => ⟨m, info, some e⟩
  | Except.ok (rows, cols, info1) =>
      tpLoop d ms rows file 0 (Mat.setSize T rows cols) info1

/-- The trimmed lines a first-pass scan actually processes: everything
strictly before the first empty line. -/
def linesProcessedFP : List String → List String
  | [] => []
  | l :: ls =>
      if strEmpty (trim l) then [] else trim l :: linesProcessedFP ls

/-- The first-pass trace the non-transposed orientation should produce per
the spec: every token of every processed line, positioned by its zero-based
line index. -/
def fpTraceNT (d : Char) (file : List String) : List (String × Nat) :=
  ((linesProcessedFP file).enum).flatMap fun p =>
    ((tokenizeLine d p.2).getD []).map fun t => (t, p.1)

/-- The first-pass trace the transposed orientation should produce per the
spec: every token of every processed line, positioned by its zero-based field
index within its line. -/
def fpTraceT (d : Char) (file : List String) : List (String × Nat) :=
  (linesProcessedFP file).flatMap fun l =>
    ((tokenizeLine d l).getD []).enum.map fun it => (it.2, it.1)

/-- The row count the second loop of `GetMatrixSize` reports when a first
pass is required: lines up to and including the first empty one. -/
def rowsCounted : List String → Nat
  | [] => 0
  | l :: ls => if strEmpty (trim l) then 1 else 1 + rowsCounted ls

/-- Claim C1 (code bug evidence): on a line holding a field that opens with a
quote and never closes it, the load does not fail with a deterministic
"unterminated quoted field at line N" error.  The quote-stitching loop
exhausts the line's pieces, the failing `getline` erases the token, and the
loop then indexes `token[token.size() - 1]` on an empty string — the
undefined outcome, modelled as `undefBehavior`; no unterminated-quote error
kind exists anywhere in the source. -/
theorem c1_unterminated_quote_hits_undefined_outcome :
    tokenizeLine ',' "\"a,b" = none ∧
    nonTransposeParse ',' false (fun t _ => t) ["\"a,b"] (Info.mk 0 [])
        (Mat.mk 0 0 []) =
      ParseOut.mk (Mat.mk 1 0 []) (Info.mk 1 [])
        (some LoadErr.undefBehavior) :=
  ⟨rfl, rfl⟩

/-- Claim C2 (code bug evidence): on the line `,3` the first delimiter-split
field is zero-length, yet the tokenizer still evaluates the leading-quote
test `token[0] == '"'` on it — no length check precedes the indexing
(`emptyTokenHeadTest` flags exactly the tokens on which the source performs
that unguarded first-character access). -/
theorem c2_zero_length_field_first_char_accessed :
    emptyTokenHeadTest ',' (splitPieces ',' (trim ",3")) false = true ∧
    tokenizeLine ',' (trim ",3") = some ["", "3"] :=
  ⟨rfl, rfl⟩

/-- Claim C3 counterexample: for the extension `dat` the constructor matches
none of its three branches and the delimiter member is left unassigned — it
is not set to comma, tab, or space, refuting "the delimiter is always set to
one of these three characters". -/
theorem c3_counterexample_unknown_extension :
    delimFromExtension "dat" = none ∧
    ¬(delimFromExtension "dat" = some ',' ∨
      delimFromExtension "dat" = some '\t' ∨
      delimFromExtension "dat" = some ' ') := by
  decide

/-- Claim C3 (amended): extension `csv` yields a comma, `tsv` a horizontal
tab, and `txt` a single space; any other extension leaves the delimiter
unassigned rather than defaulting to a space. -/
theorem c3_delimiter_from_extension (ext : String) :
    (ext = "csv" → delimFromExtension ext = some ',') ∧
    (ext = "tsv" → delimFromExtension ext = some '\t') ∧
    (ext = "txt" → delimFromExtension ext = some ' ') ∧
    (ext ≠ "csv" → ext ≠ "tsv" → ext ≠ "txt" →
      delimFromExtension ext = none) := by
  refine ⟨fun h => ?_, fun h => ?_, fun h => ?_, fun h1 h2 h3 => ?_⟩
  · subst h; rfl
  · subst h; rfl
  · subst h; rfl
  · simp only [delimFromExtension, if_neg h1, if_neg h2, if_neg h3]

theorem c3_delimiter_from_extension_witness :
    delimFromExtension "csv" = some ',' ∧
    delimFromExtension "tsv" = some '\t' ∧
    delimFromExtension "txt" = some ' ' ∧
    delimFromExtension "dat" = none :=
  ⟨(c3_delimiter_from_extension "csv").1 rfl,
   (c3_delimiter_from_extension "tsv").2.1 rfl,
   (c3_delimiter_from_extension "txt").2.2.1 rfl,
   (c3_delimiter_from_extension "dat").2.2.2 (by decide) (by decide)
     (by decide)⟩

/-- Claim C7: the line `"1,2",3` with comma delimiter tokenizes to exactly
two tokens, the re-joined quoted compound (quote characters retained
verbatim) and `3` — not three tokens. -/
theorem c7_quoted_compound_rejoined :
    tokenizeLine ',' "\"1,2\",3" = some ["\"1,2\"", "3"] ∧
    (["\"1,2\"", "3"] : List String).length = 2 :=
  ⟨rfl, rfl⟩

/-- Claim C4 counterexample: a transposed load of an empty file against a
mapper whose dimensionality is pre-set to 5 succeeds without any
dimensionality-mismatch error, even though the discovered axis length (0)
differs from 5 — the check lives inside the per-line loop, which never runs. -/
theorem c4_counterexample_empty_transposed_file :
    transposeParse ',' false (fun t _ => t) ([] : List String) (Info.mk 5 [])
        (Mat.mk 3 3 []) =
      ParseOut.mk (Mat.mk 0 0 []) (Info.mk 5 []) none ∧
    (5 : Nat) ≠ 0 :=
  ⟨rfl, by decide⟩

/-- Claim C5 counterexample: in the non-transposed file whose second line has
one field too many (`1,2` then `1,2,3`), the deviation does not abort with
the wrong-field-count error naming line 1 and the counts 3 and 2; the write
`inout(1, 2)` lands outside the sized 2x2 matrix before the count check is
reached. -/
theorem c5_counterexample_extra_field :
    (nonTransposeParse ',' false (fun t _ => t) ["1,2", "1,2,3"]
        (Info.mk 0 []) (Mat.mk 0 0 [])).err =
      some LoadErr.matIndexOutOfRange ∧
    (nonTransposeParse ',' false (fun t _ => t) ["1,2", "1,2,3"]
        (Info.mk 0 []) (Mat.mk 0 0 [])).err ≠
      some (LoadErr.wrongDimNT 3 1 2) := by
  decide

/-- Claim C6 counterexample: with a policy that needs a first pass, the file
`["1", "", "2"]` discovers successfully, but the mapper's dimensionality is
set to 3 (the full line count from pass one) while the returned row count is
2 (pass two stops at the empty line) — the two are not equal. -/
theorem c6_counterexample_first_pass_early_stop :
    getMatrixSize ',' true ["1", "", "2"] (Info.mk 0 []) =
      Except.ok (2, 1, Info.mk 3 [("1", 0)]) ∧
    (3 : Nat) ≠ 2 :=
  ⟨rfl, by decide⟩

/-- Claim C10 counterexample: the file `["1", "", "2", ""]` ends with an
empty line; non-transposed discovery sizes the matrix with 4 rows, yet
population stops at the interior empty line after writing only row 0 — the
matrix has three more rows than population wrote, not one. -/
theorem c10_counterexample_interior_empty_line :
    nonTransposeParse ',' false (fun t _ => t) ["1", "", "2", ""]
        (Info.mk 0 []) (Mat.mk 0 0 []) =
      ParseOut.mk (Mat.mk 4 1 [(0, 0, "1")]) (Info.mk 4 []) none ∧
    ¬((4 : Nat) = 1 + 1) :=
  ⟨rfl, by decide⟩

theorem gmsPass2_false (d : Char) :
    ∀ (ls : List String) (n : Nat),
    gmsPass2 d false ls n = Except.ok (n + ls.length, []) := by
  intro ls
  induction ls with
  | nil => intro n; simp [gmsPass2]
  | cons l ls ih =>
      intro n
      have e : n + (ls.length + 1) = (n + 1) + ls.length := by omega
      simp only [gmsPass2, Bool.false_eq_true, if_false, List.length_cons, e, ih]

theorem gtmsPass_false (d : Char) :
    ∀ (ls : List String) (n : Nat),
    gtmsPass d false ls n = Except.ok (n + ls.length, []) := by
  intro ls
  induction ls with
  | nil => intro n; simp [gtmsPass]
  | cons l ls ih =>
      intro n
      have e : n + (ls.length + 1) = (n + 1) + ls.length := by omega
      simp only [gtmsPass, Bool.false_eq_true, if_false, List.length_cons, e, ih]

theorem gmsPass2_true_spec (d : Char) :
    ∀ (ls : List String) (n r : Nat) (tr : List (String × Nat)),
    gmsPass2 d true ls n = Except.ok (r, tr) →
    r = n + rowsCounted ls ∧
    tr = ((linesProcessedFP ls).enumFrom n).flatMap
      (fun p => ((tokenizeLine d p.2).getD []).map fun t => (t, p.1)) := by
  intro ls
  induction ls with
  | nil =>
      intro n r tr h
      simp only [gmsPass2, Except.ok.injEq, Prod.mk.injEq] at h
      obtain ⟨h1, h2⟩ := h
      simp [rowsCounted, linesProcessedFP, ← h1, ← h2, List.enumFrom]
  | cons l ls ih =>
      intro n r tr h
      simp only [gmsPass2, if_true] at h
      by_cases hE : strEmpty (trim l) = true
      · rw [if_pos hE] at h
        simp only [Except.ok.injEq, Prod.mk.injEq] at h
        obtain ⟨h1, h2⟩ := h
        constructor
        · simp [rowsCounted, hE, ← h1]
        · simp [linesProcessedFP, hE, ← h2, List.enumFrom]
      · rw [if_neg hE] at h
        cases hT : tokenizeLine d (trim l) with
        | none => rw [hT] at h; cases h
        | some ts =>
            rw [hT] at h
            cases hG : gmsPass2 d true ls (n + 1) with
            | error e => rw [hG] at h; cases h
            | ok p =>
                obtain ⟨rf, tr2⟩ := p
                rw [hG] at h
                simp only [Except.ok.injEq, Prod.mk.injEq] at h
                obtain ⟨h1, h2⟩ := h
                obtain ⟨ih1, ih2⟩ := ih (n + 1) rf tr2 hG
                have hEb : strEmpty (trim l) = false := by
                  cases hx : strEmpty (trim l) with
                  | true => exact absurd hx hE
                  | false => rfl
                constructor
                · rw [← h1, ih1, rowsCounted]
                  rw [hEb]
                  simp
                  omega
                · rw [← h2, ih2, linesProcessedFP]
                  rw [hEb]
                  simp only [Bool.false_eq_true, if_false, List.enumFrom,
                    List.flatMap_cons, hT, Option.getD_some]

theorem gtmsPass_true_spec (d : Char) :
    ∀ (ls : List String) (n r : Nat) (tr : List (String × Nat)),
    gtmsPass d true ls n = Except.ok (r, tr) →
    tr = (linesProcessedFP ls).flatMap
      (fun l => ((tokenizeLine d l).getD []).enum.map fun it => (it.2, it.1)) := by
  intro ls
  induction ls with
  | nil =>
      intro n r tr h
      simp only [gtmsPass, Except.ok.injEq, Prod.mk.injEq] at h
      simp [linesProcessedFP, ← h.2]
  | cons l ls ih =>
      intro n r tr h
      simp only [gtmsPass, if_true] at h
      by_cases hE : strEmpty (trim l) = true
      · rw [if_pos hE] at h
        simp only [Except.ok.injEq, Prod.mk.injEq] at h
        simp [linesProcessedFP, hE, ← h.2]
      · rw [if_neg hE] at h
        cases hT : tokenizeLine d (trim l) with
        | none => rw [hT] at h; cases h
        | some ts =>
            rw [hT] at h
            cases hG : gtmsPass d true ls (n + 1) with
            | error e => rw [hG] at h; cases h
            | ok p =>
                obtain ⟨cf, tr2⟩ := p
                rw [hG] at h
                simp only [Except.ok.injEq, Prod.mk.injEq] at h
                have hEb : strEmpty (trim l) = false := by
                  cases hx : strEmpty (trim l) with
                  | true => exact absurd hx hE
                  | false => rfl
                rw [← h.2, ih (n + 1) cf tr2 hG, linesProcessedFP]
                rw [hEb]
                simp only [Bool.false_eq_true, if_false, List.flatMap_cons, hT,
                  Option.getD_some]

theorem writeRowTokens_total {T : Type} (ms : String → Nat → T) :
    ∀ (ts : List String) (col : Nat) (m : Mat T) (row : Nat),
    row < m.nRows → col + ts.length ≤ m.nCols →
    ∃ m2, writeRowTokens ms row ts col m = some m2 ∧
      m2.nRows = m.nRows ∧ m2.nCols = m.nCols ∧
      (∀ w ∈ m2.writes, w ∈ m.writes ∨ w.1 = row) := by
  intro ts
  induction ts with
  | nil =>
      intro col m row _ _
      exact ⟨m, rfl, rfl, rfl, fun w hw => Or.inl hw⟩
  | cons t ts ih =>
      intro col m row hr hc
      have hcol : col < m.nCols := by
        simp only [List.length_cons] at hc; omega
      have hwr : m.write row col (ms t row) =
          some ⟨m.nRows, m.nCols, m.writes ++ [(row, col, ms t row)]⟩ := by
        simp [Mat.write, hr, hcol]
      obtain ⟨m2, h2, hR, hC, hW⟩ :=
        ih (col + 1) ⟨m.nRows, m.nCols, m.writes ++ [(row, col, ms t row)]⟩ row
          (by simpa using hr) (by simp only [List.length_cons] at hc; simp; omega)
      refine ⟨m2, ?_, by simpa using hR, by simpa using hC, ?_⟩
      · simp only [writeRowTokens, hwr]
        exact h2
      · intro w hw
        rcases hW w hw with h | h
        · rcases List.mem_append.1 h with h' | h'
          · exact Or.inl h'
          · rw [List.mem_singleton] at h'
            exact Or.inr (by rw [h'])
        · exact Or.inr h

theorem writeColTokens_total {T : Type} (ms : String → Nat → T) :
    ∀ (ts : List String) (row : Nat) (m : Mat T) (col : Nat),
    col < m.nCols → row + ts.length ≤ m.nRows →
    ∃ m2, writeColTokens ms col ts row m = some m2 ∧
      m2.nRows = m.nRows ∧ m2.nCols = m.nCols := by
  intro ts
  induction ts with
  | nil =>
      intro row m col _ _
      exact ⟨m, rfl, rfl, rfl⟩
  | cons t ts ih =>
      intro row m col hcol hr
      have hrow : row < m.nRows := by
        simp only [List.length_cons] at hr; omega
      have hwr : m.write row col (ms t row) =
          some ⟨m.nRows, m.nCols, m.writes ++ [(row, col, ms t row)]⟩ := by
        simp [Mat.write, hrow, hcol]
      obtain ⟨m2, h2, hR, hC⟩ :=
        ih (row + 1) ⟨m.nRows, m.nCols, m.writes ++ [(row, col, ms t row)]⟩ col
          (by simpa using hcol) (by simp only [List.length_cons] at hr; simp; omega)
      refine ⟨m2, ?_, by simpa using hR, by simpa using hC⟩
      simp only [writeColTokens, hwr]
      exact h2

theorem ntpLoop_append {T : Type} (d : Char) (ms : String → Nat → T)
    (cols : Nat) :
    ∀ (pre ls : List String) (row : Nat) (m : Mat T) (i : Info),
    (∀ l ∈ pre, strEmpty (trim l) = false ∧
      (tokenizeLine d (trim l)).map List.length = some cols) →
    cols ≤ m.nCols → row + pre.length ≤ m.nRows →
    ∃ m2, ntpLoop d ms cols (pre ++ ls) row m i =
        ntpLoop d ms cols ls (row + pre.length) m2 i ∧
      m2.nRows = m.nRows ∧ m2.nCols = m.nCols ∧
      (∀ w ∈ m2.writes, w ∈ m.writes ∨ (row ≤ w.1 ∧ w.1 < row + pre.length)) := by
  intro pre
  induction pre with
  | nil =>
      intro ls row m i _ _ _
      exact ⟨m, by simp, rfl, rfl, fun w hw => Or.inl hw⟩
  | cons l pre ih =>
      intro ls row m i hpre hc hr
      obtain ⟨hne, hlen⟩ := hpre l (List.mem_cons_self l pre)
      obtain ⟨ts, hts, htl⟩ :
          ∃ ts, tokenizeLine d (trim l) = some ts ∧ ts.length = cols := by
        cases hT : tokenizeLine d (trim l) with
        | none => rw [hT] at hlen; cases hlen
        | some ts =>
            rw [hT] at hlen
            exact ⟨ts, rfl, by simpa using hlen⟩
      have hrow : row < m.nRows := by
        simp only [List.length_cons] at hr; omega
      obtain ⟨m1, hw1, hR1, hC1, hW1⟩ :=
        writeRowTokens_total ms ts 0 m row hrow (by rw [htl]; omega)
      have step : ntpLoop d ms cols ((l :: pre) ++ ls) row m i =
          ntpLoop d ms cols (pre ++ ls) (row + 1) m1 i := by
        simp only [List.cons_append, ntpLoop, hne, Bool.false_eq_true, if_false,
          hts, hw1, htl, ne_eq, not_true_eq_false]
        rfl
      obtain ⟨m2, heq, hR2, hC2, hW2⟩ :=
        ih ls (row + 1) m1 i (fun x hx => hpre x (List.mem_cons_of_mem l hx))
          (by rw [hC1]; exact hc) (by rw [hR1]; simp only [List.length_cons] at hr; omega)
      have harith : row + 1 + pre.length = row + (l :: pre).length := by
        simp only [List.length_cons]; omega
      refine ⟨m2, ?_, by rw [hR2, hR1], by rw [hC2, hC1], ?_⟩
      · rw [step, heq, harith]
      · intro w hw
        rcases hW2 w hw with h | h
        · rcases hW1 w h with h' | h'
          · exact Or.inl h'
          · right
            simp only [List.length_cons]
            omega
        · right
          simp only [List.length_cons]
          omega

theorem tpLoop_append {T : Type} (d : Char) (ms : String → Nat → T)
    (rows : Nat) :
    ∀ (pre ls : List String) (col : Nat) (m : Mat T) (i : Info),
    (∀ l ∈ pre, strEmpty (trim l) = false ∧
      (tokenizeLine d (trim l)).map List.length = some rows) →
    rows ≤ m.nRows → col + pre.length ≤ m.nCols →
    ∃ m2, tpLoop d ms rows (pre ++ ls) col m i =
        tpLoop d ms rows ls (col + pre.length) m2 i ∧
      m2.nRows = m.nRows ∧ m2.nCols = m.nCols := by
  intro pre
  induction pre with
  | nil =>
      intro ls col m i _ _ _
      exact ⟨m, by simp, rfl, rfl⟩
  | cons l pre ih =>
      intro ls col m i hpre hrws hcl
      obtain ⟨hne, hlen⟩ := hpre l (List.mem_cons_self l pre)
      obtain ⟨ts, hts, htl⟩ :
          ∃ ts, tokenizeLine d (trim l) = some ts ∧ ts.length = rows := by
        cases hT : tokenizeLine d (trim l) with
        | none => rw [hT] at hlen; cases hlen
        | some ts =>
            rw [hT] at hlen
            exact ⟨ts, rfl, by simpa using hlen⟩
      have hcol : col < m.nCols := by
        simp only [List.length_cons] at hcl; omega
      obtain ⟨m1, hw1, hR1, hC1⟩ :=
        writeColTokens_total ms ts 0 m col hcol (by rw [htl]; omega)
      have step : tpLoop d ms rows ((l :: pre) ++ ls) col m i =
          tpLoop d ms rows (pre ++ ls) (col + 1) m1 i := by
        simp only [List.cons_append, tpLoop, hne, Bool.false_eq_true, if_false,
          hts, hw1, htl, ne_eq, not_true_eq_false]
        rfl
      obtain ⟨m2, heq, hR2, hC2⟩ :=
        ih ls (col + 1) m1 i (fun x hx => hpre x (List.mem_cons_of_mem l hx))
          (by rw [hR1]; exact hrws) (by rw [hC1]; simp only [List.length_cons] at hcl; omega)
      have harith : col + 1 + pre.length = col + (l :: pre).length := by
        simp only [List.length_cons]; omega
      exact ⟨m2, by rw [step, heq, harith], by rw [hR2, hR1], by rw [hC2, hC1]⟩

theorem ntpLoop_no_dimMismatch {T : Type} (d : Char) (ms : String → Nat → T)
    (cols : Nat) :
    ∀ (ls : List String) (row : Nat) (m : Mat T) (i : Info) (g v : Nat),
    (ntpLoop d ms cols ls row m i).err ≠ some (LoadErr.dimMismatch g v) := by
  intro ls
  induction ls with
  | nil =>
      intro row m i g v h
      simp [ntpLoop] at h
  | cons l ls ih =>
      intro row m i g v h
      simp only [ntpLoop] at h
      split at h
      · simp at h
      · split at h
        · simp at h
        · split at h
          · simp at h
          · split at h
            · simp at h
            · exact ih _ _ _ g v h

theorem tpLoop_no_dimMismatch {T : Type} (d : Char) (ms : String → Nat → T)
    (rows : Nat) :
    ∀ (ls : List String) (col : Nat) (m : Mat T) (i : Info) (g v : Nat),
    (tpLoop d ms rows ls col m i).err ≠ some (LoadErr.dimMismatch g v) := by
  intro ls
  induction ls with
  | nil =>
      intro col m i g v h
      simp [tpLoop] at h
  | cons l ls ih =>
      intro col m i g v h
      simp only [tpLoop] at h
      split at h
      · simp at h
      · split at h
        · simp at h
        · split at h
          · simp at h
          · split at h
            · simp at h
            · exact ih _ _ _ g v h

/-- Claim C4 (amended): if the mapper's dimensionality is zero it is set to
the discovered axis length (the full line count non-transposed, the first
line's field count transposed); if it is non-zero and differs, discovery
fails with a mismatch error reporting both the pre-existing and the
discovered value.  In the transposed orientation this holds only for files
with at least one line: on an empty file the per-line check never runs (see
the counterexample). -/
theorem c4_dimensionality_contract (d : Char) (needsFP : Bool)
    (file : List String) (info : Info) :
    (info.dim = 0 → ∀ r c i2,
      getMatrixSize d needsFP file info = Except.ok (r, c, i2) →
      i2.dim = file.length) ∧
    (info.dim ≠ 0 → info.dim ≠ file.length →
      getMatrixSize d needsFP file info =
        Except.error (LoadErr.dimMismatch info.dim file.length)) ∧
    (file ≠ [] → info.dim = 0 → ∀ r c i2,
      getTransposeMatrixSize d needsFP file info = Except.ok (r, c, i2) →
      i2.dim = matSizeCols d file) ∧
    (file ≠ [] → info.dim ≠ 0 → info.dim ≠ matSizeCols d file →
      getTransposeMatrixSize d needsFP file info =
        Except.error (LoadErr.dimMismatch info.dim (matSizeCols d file))) := by
  refine ⟨?_, ?_, ?_, ?_⟩
  · intro h0 r c i2 h
    simp only [getMatrixSize] at h
    rw [if_neg (by simp [h0])] at h
    cases hG : gmsPass2 d needsFP file 0 with
    | error e => rw [hG] at h; cases h
    | ok p =>
        obtain ⟨rows2, tr⟩ := p
        rw [hG] at h
        simp only [Except.ok.injEq, Prod.mk.injEq] at h
        rw [← h.2.2]
  · intro h1 h2
    simp only [getMatrixSize]
    rw [if_pos ⟨h1, h2⟩]
  · intro hne h0 r c i2 h
    simp only [getTransposeMatrixSize] at h
    rw [if_neg hne, if_neg (by simp [h0])] at h
    cases hG : gtmsPass d needsFP file 0 with
    | error e => rw [hG] at h; cases h
    | ok p =>
        obtain ⟨cols2, tr⟩ := p
        rw [hG] at h
        simp only [Except.ok.injEq, Prod.mk.injEq] at h
        rw [← h.2.2]
  · intro hne h1 h2
    simp only [getTransposeMatrixSize]
    rw [if_neg hne, if_pos ⟨h1, h2⟩]

theorem c4_dimensionality_contract_witness :
    getMatrixSize ',' false ["a", "b", "c", "d"] (Info.mk 5 []) =
      Except.error (LoadErr.dimMismatch 5 4) ∧
    (Info.mk 4 []).dim = (["a", "b", "c", "d"] : List String).length ∧
    getTransposeMatrixSize ',' false ["1,2,3"] (Info.mk 5 []) =
      Except.error (LoadErr.dimMismatch 5 3) ∧
    (Info.mk 3 []).dim = matSizeCols ',' ["1,2,3"] :=
  ⟨(c4_dimensionality_contract ',' false ["a", "b", "c", "d"]
      (Info.mk 5 [])).2.1 (by decide) (by decide),
   (c4_dimensionality_contract ',' false ["a", "b", "c", "d"]
      (Info.mk 0 [])).1 rfl 4 1 (Info.mk 4 []) rfl,
   (c4_dimensionality_contract ',' false ["1,2,3"]
      (Info.mk 5 [])).2.2.2 (by decide) (by decide) (by decide),
   (c4_dimensionality_contract ',' false ["1,2,3"]
      (Info.mk 0 [])).2.2.1 (by decide) rfl 3 1 (Info.mk 3 []) rfl⟩

/-- Claim C6 (amended): on successful non-transposed discovery the mapper's
dimensionality equals the file's total line count, and the returned column
count equals the field count of the first data-bearing line (later lines are
never consulted for it).  The returned row count equals the total line count
when the policy needs no preliminary pass; with a preliminary pass it counts
only up to and including the first empty line. -/
theorem c6_nontranspose_discovery_guarantees (d : Char) (needsFP : Bool)
    (file : List String) (info : Info) (r c : Nat) (i2 : Info)
    (h : getMatrixSize d needsFP file info = Except.ok (r, c, i2)) :
    i2.dim = file.length ∧ c = matSizeCols d file ∧
    (needsFP = false → r = file.length) ∧
    (needsFP = true → r = rowsCounted file) := by
  simp only [getMatrixSize] at h
  by_cases hcond : info.dim ≠ 0 ∧ info.dim ≠ file.length
  · rw [if_pos hcond] at h; cases h
  · rw [if_neg hcond] at h
    cases hG : gmsPass2 d needsFP file 0 with
    | error e => rw [hG] at h; cases h
    | ok p =>
        obtain ⟨rows2, tr⟩ := p
        rw [hG] at h
        simp only [Except.ok.injEq, Prod.mk.injEq] at h
        obtain ⟨h1, h2, h3⟩ := h
        refine ⟨by rw [← h3], h2.symm, ?_, ?_⟩
        · intro hfp
          subst hfp
          rw [gmsPass2_false d file 0] at hG
          simp only [Except.ok.injEq, Prod.mk.injEq] at hG
          omega
        · intro hfp
          subst hfp
          obtain ⟨hr, _⟩ := gmsPass2_true_spec d file 0 rows2 tr hG
          omega

theorem c6_nontranspose_discovery_guarantees_witness :
    (Info.mk 2 []).dim = (["1,2", "3,4"] : List String).length ∧
    2 = matSizeCols ',' ["1,2", "3,4"] ∧
    (false = false → 2 = (["1,2", "3,4"] : List String).length) ∧
    (false = true → 2 = rowsCounted ["1,2", "3,4"]) :=
  c6_nontranspose_discovery_guarantees ',' false ["1,2", "3,4"]
    (Info.mk 0 []) 2 2 (Info.mk 2 []) rfl

/-- Claim C8: when the policy needs a preliminary pass, the positional
argument handed to `MapFirstPass` with each token is the zero-based line
index in non-transposed discovery, and the zero-based field index within the
line (reset at each line) in transposed discovery. -/
theorem c8_first_pass_positions (d : Char) (file : List String) (n : Nat)
    (r c r2 c2 : Nat) (i2 i3 : Info) :
    (getMatrixSize d true file (Info.mk n []) = Except.ok (r, c, i2) →
      i2.fp = fpTraceNT d file) ∧
    (getTransposeMatrixSize d true file (Info.mk n []) = Except.ok (r2, c2, i3) →
      i3.fp = fpTraceT d file) := by
  constructor
  · intro h
    simp only [getMatrixSize] at h
    by_cases hcond : (Info.mk n []).dim ≠ 0 ∧ (Info.mk n []).dim ≠ file.length
    · rw [if_pos hcond] at h; cases h
    · rw [if_neg hcond] at h
      cases hG : gmsPass2 d true file 0 with
      | error e => rw [hG] at h; cases h
      | ok p =>
          obtain ⟨rows2, tr⟩ := p
          rw [hG] at h
          simp only [Except.ok.injEq, Prod.mk.injEq] at h
          obtain ⟨_, _, h3⟩ := h
          obtain ⟨_, htr⟩ := gmsPass2_true_spec d file 0 rows2 tr hG
          rw [← h3]
          simp [htr, fpTraceNT, List.enum]
  · intro h
    simp only [getTransposeMatrixSize] at h
    by_cases hfe : file = []
    · rw [if_pos hfe] at h
      simp only [Except.ok.injEq, Prod.mk.injEq] at h
      obtain ⟨_, _, h3⟩ := h
      rw [← h3]
      subst hfe
      simp [fpTraceT, linesProcessedFP]
    · rw [if_neg hfe] at h
      by_cases hcond : (Info.mk n []).dim ≠ 0 ∧ (Info.mk n []).dim ≠ matSizeCols d file
      · rw [if_pos hcond] at h; cases h
      · rw [if_neg hcond] at h
        cases hG : gtmsPass d true file 0 with
        | error e => rw [hG] at h; cases h
        | ok p =>
            obtain ⟨cols2, tr⟩ := p
            rw [hG] at h
            simp only [Except.ok.injEq, Prod.mk.injEq] at h
            obtain ⟨_, _, h3⟩ := h
            have htr := gtmsPass_true_spec d file 0 cols2 tr hG
            rw [← h3]
            simp [htr, fpTraceT]

theorem c8_first_pass_positions_witness :
    (Info.mk 2 [("1", 0), ("2", 0), ("3", 1), ("4", 1)]).fp =
      fpTraceNT ',' ["1,2", "3,4"] ∧
    (Info.mk 2 [("1", 0), ("2", 1), ("3", 0), ("4", 1)]).fp =
      fpTraceT ',' ["1,2", "3,4"] :=
  ⟨(c8_first_pass_positions ',' ["1,2", "3,4"] 0 2 2 2 2
      (Info.mk 2 [("1", 0), ("2", 0), ("3", 1), ("4", 1)])
      (Info.mk 2 [("1", 0), ("2", 1), ("3", 0), ("4", 1)])).1 rfl,
   (c8_first_pass_positions ',' ["1,2", "3,4"] 0 2 2 2 2
      (Info.mk 2 [("1", 0), ("2", 0), ("3", 1), ("4", 1)])
      (Info.mk 2 [("1", 0), ("2", 1), ("3", 0), ("4", 1)])).2 rfl⟩

/-- Claim C9: whenever a load fails with the dimensionality-mismatch error,
the caller's matrix is returned exactly as it was passed in: in both
orientations that error can only arise inside dimension discovery, which
runs strictly before `set_size` and before any cell write (the population
loops can produce every other error kind but never a mismatch). -/
theorem c9_dim_mismatch_matrix_unchanged {T : Type} (d : Char)
    (needsFP : Bool) (ms : String → Nat → T) (file : List String)
    (info : Info) (m : Mat T) (g v : Nat) :
    ((nonTransposeParse d needsFP ms file info m).err =
        some (LoadErr.dimMismatch g v) →
      (nonTransposeParse d needsFP ms file info m).mat = m) ∧
    ((transposeParse d needsFP ms file info m).err =
        some (LoadErr.dimMismatch g v) →
      (transposeParse d needsFP ms file info m).mat = m) := by
  constructor
  · intro h
    cases hG : getMatrixSize d needsFP file info with
    | error e =>
        have hp : nonTransposeParse d needsFP ms file info m =
            ⟨m, info, some e⟩ := by
          simp only [nonTransposeParse, hG]
        rw [hp]
    | ok p =>
        obtain ⟨rows, cols, info1⟩ := p
        simp only [nonTransposeParse, hG] at h
        exact absurd h (ntpLoop_no_dimMismatch d ms cols file 0 _ info1 g v)
  · intro h
    cases hG : getTransposeMatrixSize d needsFP file info with
    | error e =>
        have hp : transposeParse d needsFP ms file info m =
            ⟨m, info, some e⟩ := by
          simp only [transposeParse, hG]
        rw [hp]
    | ok p =>
        obtain ⟨rows, cols, info1⟩ := p
        simp only [transposeParse, hG] at h
        exact absurd h (tpLoop_no_dimMismatch d ms rows file 0 _ info1 g v)

theorem c9_dim_mismatch_matrix_unchanged_witness :
    ((nonTransposeParse ',' false (fun t _ => t) ["a", "b", "c", "d"]
        (Info.mk 5 []) (Mat.mk 7 7 [(1, 1, "z")])).mat =
      Mat.mk 7 7 [(1, 1, "z")]) ∧
    ((transposeParse ',' false (fun t _ => t) ["1,2,3"]
        (Info.mk 5 []) (Mat.mk 7 7 [(1, 1, "z")])).mat =
      Mat.mk 7 7 [(1, 1, "z")]) :=
  ⟨(c9_dim_mismatch_matrix_unchanged ',' false (fun t _ => t)
      ["a", "b", "c", "d"] (Info.mk 5 []) (Mat.mk 7 7 [(1, 1, "z")]) 5 4).1 rfl,
   (c9_dim_mismatch_matrix_unchanged ',' false (fun t _ => t)
      ["1,2,3"] (Info.mk 5 []) (Mat.mk 7 7 [(1, 1, "z")]) 5 3).2 rfl⟩

/-- Claim C5 (amended): during population, a non-empty line whose field count
is smaller than the expected fixed axis length aborts the load with the
wrong-dimension error naming the offending zero-based line index
(non-transposed) or column index (transposed) together with the observed and
expected counts; in particular a second line with one field fewer than the
first fails naming index 1.  (A line with too many fields instead dies on an
out-of-range matrix write before the count check — see the counterexample.) -/
theorem c5_fewer_fields_wrong_dimension {T : Type} (d : Char)
    (ms : String → Nat → T) (pre : List String) (bad : String)
    (rest : List String) (bs : List String) (f0 : List (String × Nat))
    (m0 : Mat T) (cols : Nat)
    (hC : matSizeCols d (pre ++ bad :: rest) = cols)
    (hpre : ∀ l ∈ pre, strEmpty (trim l) = false ∧
      (tokenizeLine d (trim l)).map List.length = some cols)
    (hbe : strEmpty (trim bad) = false)
    (hbt : tokenizeLine d (trim bad) = some bs)
    (hlt : bs.length < cols) :
    (nonTransposeParse d false ms (pre ++ bad :: rest) (Info.mk 0 f0) m0).err =
      some (LoadErr.wrongDimNT bs.length pre.length cols) ∧
    (transposeParse d false ms (pre ++ bad :: rest) (Info.mk 0 f0) m0).err =
      some (LoadErr.wrongDimT bs.length pre.length cols) := by
  have hlen : (pre ++ bad :: rest).length = pre.length + (rest.length + 1) := by
    simp [List.length_append]
  constructor
  · have hdisc : getMatrixSize d false (pre ++ bad :: rest) (Info.mk 0 f0) =
        Except.ok ((pre ++ bad :: rest).length, cols,
          Info.mk (pre ++ bad :: rest).length f0) := by
      simp only [getMatrixSize]
      rw [if_neg (by simp)]
      rw [gmsPass2_false]
      simp [hC]
    obtain ⟨m2, heq, hR2, hC2, _⟩ :=
      ntpLoop_append d ms cols pre (bad :: rest) 0
        (Mat.setSize T (pre ++ bad :: rest).length cols)
        (Info.mk (pre ++ bad :: rest).length f0) hpre
        (Nat.le_refl cols) (by simp only [Mat.setSize, hlen]; omega)
    obtain ⟨m3, hw3, _, _, _⟩ :=
      writeRowTokens_total ms bs 0 m2 (0 + pre.length)
        (by rw [hR2]; simp only [Mat.setSize, hlen]; omega)
        (by rw [hC2]; simp only [Mat.setSize]; omega)
    have hfin : ntpLoop d ms cols (bad :: rest) (0 + pre.length) m2
        (Info.mk (pre ++ bad :: rest).length f0) =
        ⟨m3, Info.mk (pre ++ bad :: rest).length f0,
          some (LoadErr.wrongDimNT bs.length (0 + pre.length) cols)⟩ := by
      simp only [ntpLoop, hbe, Bool.false_eq_true, if_false, hbt, hw3]
      rw [if_pos (by omega)]
    simp only [nonTransposeParse, hdisc, heq, hfin]
    simp
  · have hdiscT : getTransposeMatrixSize d false (pre ++ bad :: rest)
        (Info.mk 0 f0) =
        Except.ok (cols, (pre ++ bad :: rest).length, Info.mk cols f0) := by
      simp only [getTransposeMatrixSize]
      rw [if_neg (by simp)]
      rw [if_neg (by simp)]
      rw [gtmsPass_false]
      simp [hC]
    obtain ⟨m2, heq, hR2, hC2⟩ :=
      tpLoop_append d ms cols pre (bad :: rest) 0
        (Mat.setSize T cols (pre ++ bad :: rest).length)
        (Info.mk cols f0) hpre
        (Nat.le_refl cols) (by simp only [Mat.setSize, hlen]; omega)
    obtain ⟨m3, hw3, _, _⟩ :=
      writeColTokens_total ms bs 0 m2 (0 + pre.length)
        (by rw [hC2]; simp only [Mat.setSize, hlen]; omega)
        (by rw [hR2]; simp only [Mat.setSize]; omega)
    have hfin : tpLoop d ms cols (bad :: rest) (0 + pre.length) m2
        (Info.mk cols f0) =
        ⟨m3, Info.mk cols f0,
          some (LoadErr.wrongDimT bs.length (0 + pre.length) cols)⟩ := by
      simp only [tpLoop, hbe, Bool.false_eq_true, if_false, hbt, hw3]
      rw [if_pos (by omega)]
    simp only [transposeParse, hdiscT, heq, hfin]
    simp

theorem c5_fewer_fields_wrong_dimension_witness :
    (nonTransposeParse ',' false (fun t _ => t) ["1,2", "3"]
        (Info.mk 0 []) (Mat.mk 0 0 [])).err =
      some (LoadErr.wrongDimNT 1 1 2) ∧
    (transposeParse ',' false (fun t _ => t) ["1,2", "3"]
        (Info.mk 0 []) (Mat.mk 0 0 [])).err =
      some (LoadErr.wrongDimT 1 1 2) :=
  c5_fewer_fields_wrong_dimension ',' (fun t _ => t) ["1,2"] "3" [] ["3"]
    [] (Mat.mk 0 0 []) 2 rfl (by decide) rfl rfl (by decide)

/-- Claim C10 (amended): for a non-transposed load (with a policy needing no
preliminary pass) of a file whose final line is empty and whose other lines
are non-empty and well-formed, discovery counts the empty final line into the
row count, while population stops at it before writing anything; the matrix
is therefore sized with exactly one more row than population writes, and the
last row keeps its unwritten post-allocation contents.  (If an empty line
occurs earlier, the gap is larger than one — see the counterexample.) -/
theorem c10_trailing_empty_line {T : Type} (d : Char) (ms : String → Nat → T)
    (pre : List String) (lastLine : String) (f0 : List (String × Nat))
    (m0 : Mat T) (cols : Nat)
    (hC : matSizeCols d (pre ++ [lastLine]) = cols)
    (hpre : ∀ l ∈ pre, strEmpty (trim l) = false ∧
      (tokenizeLine d (trim l)).map List.length = some cols)
    (hle : strEmpty (trim lastLine) = true) :
    (nonTransposeParse d false ms (pre ++ [lastLine]) (Info.mk 0 f0) m0).err =
      none ∧
    (nonTransposeParse d false ms (pre ++ [lastLine])
        (Info.mk 0 f0) m0).mat.nRows = pre.length + 1 ∧
    (∀ w ∈ (nonTransposeParse d false ms (pre ++ [lastLine])
        (Info.mk 0 f0) m0).mat.writes, w.1 < pre.length) ∧
    (∀ j, (nonTransposeParse d false ms (pre ++ [lastLine])
        (Info.mk 0 f0) m0).mat.cell pre.length j = none) := by
  have hlen : (pre ++ [lastLine]).length = pre.length + 1 := by
    simp [List.length_append]
  have hdisc : getMatrixSize d false (pre ++ [lastLine]) (Info.mk 0 f0) =
      Except.ok ((pre ++ [lastLine]).length, cols,
        Info.mk (pre ++ [lastLine]).length f0) := by
    simp only [getMatrixSize]
    rw [if_neg (by simp)]
    rw [gmsPass2_false]
    simp [hC]
  obtain ⟨m2, heq, hR2, hC2, hW2⟩ :=
    ntpLoop_append d ms cols pre [lastLine] 0
      (Mat.setSize T (pre ++ [lastLine]).length cols)
      (Info.mk (pre ++ [lastLine]).length f0) hpre
      (Nat.le_refl cols) (by simp only [Mat.setSize, hlen]; omega)
  have hfin : ntpLoop d ms cols [lastLine] (0 + pre.length) m2
      (Info.mk (pre ++ [lastLine]).length f0) =
      ⟨m2, Info.mk (pre ++ [lastLine]).length f0, none⟩ := by
    simp only [ntpLoop]
    rw [if_pos hle]
  have hall : nonTransposeParse d false ms (pre ++ [lastLine])
      (Info.mk 0 f0) m0 =
      ⟨m2, Info.mk (pre ++ [lastLine]).length f0, none⟩ := by
    simp only [nonTransposeParse, hdisc, heq, hfin]
  have hww : ∀ w ∈ m2.writes, w.1 < pre.length := by
    intro w hw
    rcases hW2 w hw with h | h
    · simp [Mat.setSize] at h
    · omega
  refine ⟨by rw [hall], ?_, ?_, ?_⟩
  · rw [hall]
    show m2.nRows = pre.length + 1
    rw [hR2]
    simp [Mat.setSize, hlen]
  · intro w hw
    rw [hall] at hw
    exact hww w hw
  · intro j
    rw [hall]
    show m2.cell pre.length j = none
    have hnil : (m2.writes.filterMap fun w =>
        if w.1 = pre.length ∧ w.2.1 = j then some w.2.2 else none) = [] := by
      rw [List.filterMap_eq_nil_iff]
      intro w hw
      rw [if_neg]
      intro hc
      have hb := hww w hw
      omega
    simp [Mat.cell, hnil]

theorem c10_trailing_empty_line_witness :
    (nonTransposeParse ',' false (fun t _ => t) ["1,2", "3,4", ""]
        (Info.mk 0 []) (Mat.mk 0 0 [])).err = none ∧
    (nonTransposeParse ',' false (fun t _ => t) ["1,2", "3,4", ""]
        (Info.mk 0 []) (Mat.mk 0 0 [])).mat.nRows = 2 + 1 ∧
    (nonTransposeParse ',' false (fun t _ => t) ["1,2", "3,4", ""]
        (Info.mk 0 []) (Mat.mk 0 0 [])).mat.cell 2 0 = none := by
  have h := c10_trailing_empty_line ',' (fun t _ => t) ["1,2", "3,4"] ""
    [] (Mat.mk 0 0 []) 2 rfl (by decide) rfl
  exact ⟨h.1, h.2.1, h.2.2.2 0⟩
